import Mathlib

/-!
Verification of the SDA credential/transfer/unit-of-work subsystem.

Shallow embedding of:
* `src/sda/db/token.py`   — token lifecycle (create / latest / expired / revoke / purge)
* `src/sda/db/session.py` — context-bound session scope (commit / rollback / close)
* `src/sda/io/download_fast.py` and the `urllib3.util.retry.Retry` machinery it
  configures — resilient streamed download with atomic materialization
* `src/sda/io/get_token.py` — token issuance POST

Instants are modelled as integers, byte strings as `List Nat`, and the network
and clock as explicit oracle parameters.  Python exceptions are modelled with
`Except`; global mutable state (the token table, the context-local session
binding, the filesystem) is passed explicitly.
-/

namespace SDA

/-- Instants (`datetime.utcnow()` values) modelled as integers. -/
abbrev Instant := Int

/-- Python exceptions that the embedded functions can raise. -/
inductive PyError where
  | valueError (msg : String)
  | httpError (status : Nat)
  | requestException
deriving Repr, DecidableEq

/-! ## Token data model (`src/sda/models/cdse_token.py`) -/

/-- One row of the `cdse_token` table. -/
structure CDSEToken where
  id : Nat
  login : String
  password : String
  access_token : String
  refresh_token : Option String
  token_type : Option String
  scope : Option String
  expires_in_s : Option Nat
  issued_at : Instant
  expires_at : Option Instant
  is_revoked : Bool
  created_at : Instant
  updated_at : Instant
deriving Repr, DecidableEq

/-- The persisted token table together with the autoincrement counter and the
current clock value (`_now()`). -/
structure TokenStore where
  table : List CDSEToken
  nextId : Nat
  now : Instant
deriving Repr, DecidableEq

/-- Observable side effects of the token-layer functions. -/
inductive Event where
  | networkPOST
  | networkProbe
  | dbCommit
deriving Repr, DecidableEq

/-! ## Network oracles -/

/-- JSON payload returned by the identity endpoint
(`get_cdse_token_payload` in `src/sda/io/get_token.py`). -/
structure TokenPayload where
  access_token : Option String
  refresh_token : Option String
  token_type : Option String
  scope : Option String
  expires_in : Option Nat
deriving Repr, DecidableEq

/-- Outcome of the POST performed by `get_cdse_token_payload`: either a
transport failure (`requests.RequestException`) or a response with a status
code and body. -/
inductive IssueOutcome where
  | exn
  | status (code : Nat) (payload : TokenPayload)
deriving Repr, DecidableEq

/-- Outcome of the probe GET performed by `_token_is_valid`
(`src/sda/db/token.py`). -/
inductive ProbeOutcome where
  | exn
  | status (code : Nat)
deriving Repr, DecidableEq

/-! ## Token functions (`src/sda/db/token.py`) -/

/-- `_compute_expires_at(issued_at, expires_in_s)`. -/
def compute_expires_at (issued_at : Instant) (expires_in_s : Option Nat) :
    Option Instant :=
  match expires_in_s with
  | none => none
  | some s => some (issued_at + s)

/-- `_token_is_valid(access_token)`: True iff the probe request returns a
status `< 400`; a `requests.RequestException` yields False. -/
def token_is_valid (probe : ProbeOutcome) : Bool :=
  match probe with
  | .exn => false
  | .status code => decide (code < 400)

/-- `get_cdse_token_payload` (`src/sda/io/get_token.py`): POST to the identity
endpoint, `raise_for_status`, return the parsed JSON body. -/
def get_cdse_token_payload (outcome : IssueOutcome) : Except PyError TokenPayload :=
  match outcome with
  | .exn => .error .requestException
  | .status code payload =>
      if 400 ≤ code then .error (.httpError code) else .ok payload

/-- `create_token(login, password, totp)`: validate arguments, request a new
payload from the identity endpoint, persist a fresh row.  Returns the result
together with the (possibly updated) store and the trace of side effects. -/
def create_token (issue : IssueOutcome) (st : TokenStore)
    (login password : String) (totp : Option String) :
    Except PyError CDSEToken × TokenStore × List Event :=
  if login = "" then
    (.error (.valueError "create_token(): login is required."), st, [])
  else if password = "" then
    (.error (.valueError "create_token(): password is required."), st, [])
  else
    match get_cdse_token_payload issue with
    | .error e => (.error e, st, [.networkPOST])
    | .ok payload =>
        let issued_at := st.now
        let expires_at := compute_expires_at issued_at payload.expires_in
        let token : CDSEToken :=
          { id := st.nextId
            login := login
            password := password
            access_token := payload.access_token.getD ""
            refresh_token := payload.refresh_token
            token_type := payload.token_type
            scope := payload.scope
            expires_in_s := payload.expires_in
            issued_at := issued_at
            expires_at := expires_at
            is_revoked := false
            created_at := issued_at
            updated_at := issued_at }
        (.ok token,
         { st with table := st.table ++ [token], nextId := st.nextId + 1 },
         [.networkPOST, .dbCommit])

/-- Accumulator step realizing `ORDER BY issued_at DESC` + `session.scalar`
(first row).  A stable descending sort puts the first-in-table row among those
with maximal `issued_at` first, which is what the fold computes. -/
def latest_pick : Option CDSEToken → CDSEToken → Option CDSEToken
  | none, t => some t
  | some a, t => if a.issued_at < t.issued_at then some t else some a

/-- `get_latest_token(login)`: most recently issued row for a login
(no filter on `is_revoked` or `expires_at`); `ValueError` on empty login. -/
def get_latest_token (db : List CDSEToken) (login : String) :
    Except PyError (Option CDSEToken) :=
  if login = "" then
    .error (.valueError "get_latest_token(): login is required.")
  else
    .ok ((db.filter (fun t => t.login == login)).foldl latest_pick none)

/-- `token_is_expired(token)`: revoked, or `expires_at` set and reached. -/
def token_is_expired (now : Instant) (token : CDSEToken) : Bool :=
  if token.is_revoked then true
  else
    match token.expires_at with
    | none => false
    | some e => decide (e ≤ now)

/-- `get_or_create_valid_token(login, password, totp, validate_with_ping)`. -/
def get_or_create_valid_token (issue : IssueOutcome) (probe : ProbeOutcome)
    (st : TokenStore) (login password : String) (totp : Option String)
    (validate_with_ping : Bool) :
    Except PyError CDSEToken × TokenStore × List Event :=
  match get_latest_token st.table login with
  | .error e => (.error e, st, [])
  | .ok none => create_token issue st login password totp
  | .ok (some token) =>
      if token_is_expired st.now token then
        create_token issue st login password totp
      else if validate_with_ping then
        if token_is_valid probe then
          (.ok token, st, [.networkProbe])
        else
          match create_token issue st login password totp with
          | (r, st1, evs) => (r, st1, .networkProbe :: evs)
      else
        (.ok token, st, [])

/-- `revoke_token(token_id)`: flip `is_revoked`, bump `updated_at`, commit;
False when the id is absent. -/
def revoke_token (st : TokenStore) (token_id : Nat) : Bool × TokenStore :=
  match st.table.find? (fun t => t.id == token_id) with
  | none => (false, st)
  | some _ =>
      (true,
       { st with table := st.table.map (fun t =>
           if t.id == token_id then
             { t with is_revoked := true, updated_at := st.now }
           else t) })

/-- Eligibility test of `purge_expired_tokens`: revoked, or `expires_at` set
and reached. -/
def purge_eligible (now : Instant) (t : CDSEToken) : Bool :=
  t.is_revoked ||
    (match t.expires_at with
     | none => false
     | some e => decide (e ≤ now))

/-- `purge_expired_tokens()`: delete every eligible row, return the count. -/
def purge_expired_tokens (st : TokenStore) : Nat × TokenStore :=
  let to_delete := st.table.filter (purge_eligible st.now)
  (to_delete.length,
   { st with table := st.table.filter (fun t => ! purge_eligible st.now t) })

/-! ## Unit-of-work layer (`src/sda/db/session.py`)

A SQLAlchemy `Session` is reduced to its observable lifecycle counters; the
`_CURRENT_SESSION` `ContextVar` is the `current` field of `Ctx`.  Sessions are
identified by the order in which the factory produced them. -/

/-- Observable state of one SQLAlchemy session. -/
structure Sess where
  id : Nat
  commits : Nat
  rollbacks : Nat
  closed : Bool
deriving Repr, DecidableEq

/-- The execution context: every session created so far, the factory counter,
and the context-local binding `_CURRENT_SESSION`. -/
structure Ctx where
  sessions : List Sess
  nextId : Nat
  current : Option Nat
deriving Repr, DecidableEq

/-- A freshly constructed session (`factory()`). -/
def newSess (i : Nat) : Sess :=
  { id := i, commits := 0, rollbacks := 0, closed := false }

/-- Apply an update to the session with a given id. -/
def onSess (i : Nat) (f : Sess → Sess) (ctx : Ctx) : Ctx :=
  { ctx with sessions := ctx.sessions.map (fun s => if s.id == i then f s else s) }

/-- `session.commit()` on session `i`. -/
def commitSess (i : Nat) : Ctx → Ctx :=
  onSess i (fun s => { s with commits := s.commits + 1 })

/-- `session.rollback()` on session `i`. -/
def rollbackSess (i : Nat) : Ctx → Ctx :=
  onSess i (fun s => { s with rollbacks := s.rollbacks + 1 })

/-- `session.close()` on session `i`. -/
def closeSess (i : Nat) : Ctx → Ctx :=
  onSess i (fun s => { s with closed := true })

/-- Find a session by id. -/
def lookupSess (i : Nat) (ctx : Ctx) : Option Sess :=
  ctx.sessions.find? (fun s => s.id == i)

/-- Total number of commits performed across all sessions of a context. -/
def totalCommits (ctx : Ctx) : Nat :=
  (ctx.sessions.map Sess.commits).sum

/-- State of the context right after `session_scope` has created its session
(`factory()`) and bound it (`_CURRENT_SESSION.set(session)`). -/
def scopeEntry (ctx : Ctx) : Ctx :=
  { sessions := ctx.sessions ++ [newSess ctx.nextId]
    nextId := ctx.nextId + 1
    current := some ctx.nextId }

/-- `get_session()`: return the bound session, creating and binding a fresh one
when none is bound. -/
def get_session (ctx : Ctx) : Nat × Ctx :=
  match ctx.current with
  | some i => (i, ctx)
  | none =>
      (ctx.nextId,
       { sessions := ctx.sessions ++ [newSess ctx.nextId]
         nextId := ctx.nextId + 1
         current := some ctx.nextId })

/-- `session_scope()` (`src/sda/db/session.py`): create a fresh session, bind
it to the context, run the body; commit on normal exit, roll back and re-raise
on an exception; in all cases close the session and restore the previous
context binding (`_CURRENT_SESSION.reset(token)`).

The body receives the id of the scope's session and the context; an exception
raised by the body is an `Except.error` carrying the context as mutated up to
the raise. -/
def session_scope {ε α : Type} (body : Nat → Ctx → Except ε α × Ctx) (ctx : Ctx) :
    Except ε α × Ctx :=
  let sid := ctx.nextId
  let prev := ctx.current
  match body sid (scopeEntry ctx) with
  | (.ok a, ctx1) =>
      let ctx2 := closeSess sid (commitSess sid ctx1)
      (.ok a, { ctx2 with current := prev })
  | (.error e, ctx1) =>
      let ctx2 := closeSess sid (rollbackSess sid ctx1)
      (.error e, { ctx2 with current := prev })

/-- Two directly nested `session_scope` invocations whose inner body does
nothing and succeeds. -/
def nested_scopes (ctx : Ctx) : Except Unit Unit × Ctx :=
  session_scope (fun _ c => session_scope (fun _ c1 => (Except.ok (), c1)) c) ctx

/-- A `session_scope` whose body raises immediately. -/
def failing_scope (ctx : Ctx) : Except PyError Unit × Ctx :=
  session_scope (fun _ c => (Except.error (PyError.valueError "boom"), c)) ctx

/-! ## Retry machinery (`urllib3.util.retry.Retry`, as configured by
`make_session` in `src/sda/io/download_fast.py`)

The counters mirror urllib3 1.26 `Retry`: a value of `none` means the Python
`None` (no cap); the `False` settings are not used by this configuration and
are not modelled.  Counters may go negative, as in urllib3, where exhaustion
is `min(...) < 0` over the non-`None`, non-zero counters. -/

/-- `Retry.RETRY_AFTER_STATUS_CODES`. -/
def RETRY_AFTER_STATUS_CODES : List Nat := [413, 429, 503]

/-- The retry configuration and consecutive-error history length. -/
structure Retry where
  total : Option Int
  connect : Option Int
  read : Option Int
  redirect : Option Int
  status : Option Int
  other : Option Int
  backoff_factor : ℚ
  status_forcelist : List Nat
  allowed_methods : Option (List String)
  raise_on_status : Bool
  respect_retry_after_header : Bool
  history_len : Nat
deriving Repr, DecidableEq

/-- The `Retry` object built by `make_session` in
`src/sda/io/download_fast.py`. -/
def make_session_retry : Retry :=
  { total := some 8
    connect := some 5
    read := some 5
    redirect := none
    status := some 5
    other := none
    backoff_factor := 1/2
    status_forcelist := [429, 500, 502, 503, 504]
    allowed_methods := some ["GET"]
    raise_on_status := false
    respect_retry_after_header := true
    history_len := 0 }

/-- `Retry._is_method_retryable(method)`: an empty or `None` allowlist allows
everything (Python truthiness of `allowed_methods`). -/
def Retry.method_retryable (r : Retry) (method : String) : Bool :=
  match r.allowed_methods with
  | none => true
  | some ms => if ms.isEmpty then true else ms.contains method

/-- Python truthiness of `self.total` (`None` and `0` are falsy). -/
def Retry.total_truthy (r : Retry) : Bool :=
  match r.total with
  | none => false
  | some v => decide (v ≠ 0)

/-- `Retry.is_retry(method, status_code, has_retry_after)`. -/
def Retry.is_retry (r : Retry) (method : String) (status_code : Nat)
    (has_retry_after : Bool) : Bool :=
  if ! r.method_retryable method then false
  else if ! r.status_forcelist.isEmpty && r.status_forcelist.contains status_code then
    true
  else
    r.total_truthy && r.respect_retry_after_header && has_retry_after &&
      RETRY_AFTER_STATUS_CODES.contains status_code

/-- `Retry.is_exhausted()`: `min(...) < 0` over the counters, where Python's
`filter(None, ...)` drops both `None` and `0`; a nonempty list has a negative
minimum iff it has a negative element. -/
def Retry.is_exhausted (r : Retry) : Bool :=
  let counts := [r.total, r.connect, r.read, r.redirect, r.status, r.other]
  ((counts.filterMap id).filter (fun v => v != 0)).any (fun v => decide (v < 0))

/-- Kinds of errors fed to `Retry.increment`: connection-phase
(`ConnectTimeoutError` family), read-phase (`ReadTimeoutError` /
`ProtocolError`), or any other error. -/
inductive ErrKind where
  | connectErr
  | readErr
  | otherErr
deriving Repr, DecidableEq

/-- What `Retry.increment` can raise: the original error re-raised
(`six.reraise`) or `MaxRetryError`. -/
inductive RaiseKind where
  | reraised (k : ErrKind)
  | maxRetryError
deriving Repr, DecidableEq

/-- Input to one `Retry.increment` call: an error, or a received response. -/
inductive IncrInput where
  | failure (k : ErrKind)
  | response (status : Nat)
deriving Repr, DecidableEq

/-- `Retry.increment(method, url, response, error)`: decrement `total` and the
phase-specific counter, re-raise a read error for a non-retryable method, and
raise `MaxRetryError` when the new counters are exhausted. -/
def Retry.increment (r : Retry) (method : String) (inp : IncrInput) :
    Except RaiseKind Retry :=
  let total := r.total.map (fun v => v - 1)
  match inp with
  | .failure .connectErr =>
      let r1 := { r with total := total, connect := r.connect.map (fun v => v - 1),
                         history_len := r.history_len + 1 }
      if r1.is_exhausted then .error .maxRetryError else .ok r1
  | .failure .readErr =>
      if ! r.method_retryable method then .error (.reraised .readErr)
      else
        let r1 := { r with total := total, read := r.read.map (fun v => v - 1),
                           history_len := r.history_len + 1 }
        if r1.is_exhausted then .error .maxRetryError else .ok r1
  | .failure .otherErr =>
      let r1 := { r with total := total, other := r.other.map (fun v => v - 1),
                         history_len := r.history_len + 1 }
      if r1.is_exhausted then .error .maxRetryError else .ok r1
  | .response _ =>
      let r1 := { r with total := total, status := r.status.map (fun v => v - 1),
                         history_len := r.history_len + 1 }
      if r1.is_exhausted then .error .maxRetryError else .ok r1

/-- `Retry.get_backoff_time()`: zero for the first retry of a consecutive-error
run, then `backoff_factor * 2^(n-1)` capped at `DEFAULT_BACKOFF_MAX = 120`. -/
def Retry.get_backoff_time (r : Retry) : ℚ :=
  if r.history_len ≤ 1 then 0
  else min 120 (r.backoff_factor * 2 ^ (r.history_len - 1))

/-- `Retry.sleep(response)`: honor a truthy parsed `Retry-After` value when
`respect_retry_after_header` is set, otherwise exponential backoff.
`retry_after` is the parsed header (clamped to `≥ 0` by `parse_retry_after`),
`none` when absent or when there is no response. -/
def Retry.sleep_duration (r : Retry) (retry_after : Option ℚ) : ℚ :=
  if r.respect_retry_after_header then
    match retry_after with
    | some ra => if ra ≠ 0 then ra else r.get_backoff_time
    | none => r.get_backoff_time
  else r.get_backoff_time

/-! ## Download (`src/sda/io/download_fast.py`) -/

/-- Whether the streamed body yields all its chunks (`complete`) or raises
mid-stream after the listed chunks (`broken`). -/
inductive StreamTail where
  | complete
  | broken
deriving Repr, DecidableEq

/-- One HTTP response as observed by the retry loop and the download body. -/
structure RespData where
  status : Nat
  hasRetryAfter : Bool
  chunks : List (List Nat)
  tail : StreamTail
deriving Repr, DecidableEq

/-- Outcome of a single low-level request attempt. -/
inductive AttemptOutcome where
  | fail (k : ErrKind)
  | resp (r : RespData)
deriving Repr, DecidableEq

/-- Result of the `HTTPConnectionPool.urlopen` retry loop. -/
inductive UrlopenResult where
  | resp (r : RespData) (attemptsUsed : Nat)
  | raised (k : RaiseKind) (attemptsUsed : Nat)
  | outOfTrace
deriving Repr, DecidableEq

/-- The urllib3 `urlopen` retry loop driven by a trace of attempt outcomes:
on an error, `retries.increment(error=...)` then retry; on a response whose
method/status is retryable, `retries.increment(response=...)` then retry — on
`MaxRetryError` with `raise_on_status=False` the response is returned instead;
otherwise return the response. -/
def urlopen (r : Retry) (method : String) :
    List AttemptOutcome → Nat → UrlopenResult
  | [], _ => .outOfTrace
  | a :: rest, used =>
      match a with
      | .fail k =>
          match r.increment method (.failure k) with
          | .error rk => .raised rk (used + 1)
          | .ok r1 => urlopen r1 method rest (used + 1)
      | .resp resp =>
          if r.is_retry method resp.status resp.hasRetryAfter then
            match r.increment method (.response resp.status) with
            | .error rk =>
                if r.raise_on_status then .raised rk (used + 1)
                else .resp resp (used + 1)
            | .ok r1 => urlopen r1 method rest (used + 1)
          else .resp resp (used + 1)

/-- The filesystem: an association of paths to file contents.  Directories are
not modelled (`dst.parent.mkdir` creates only directories). -/
abbrev FS := List (String × List Nat)

/-- Content of a path, when a file exists there. -/
def fsGet (fs : FS) (p : String) : Option (List Nat) :=
  (fs.find? (fun e => e.1 == p)).map (fun e => e.2)

/-- Create or overwrite the file at a path. -/
def fsSet (fs : FS) (p : String) (content : List Nat) : FS :=
  fs.filter (fun e => e.1 != p) ++ [(p, content)]

/-- `os.replace(src, dst)`: atomically rename, overwriting `dst`. -/
def os_replace (fs : FS) (src dst : String) : FS :=
  match fsGet fs src with
  | none => fs
  | some content => fsSet (fs.filter (fun e => e.1 != src)) dst content

/-- Bytes written by the download body: every non-empty chunk, concatenated
(`if not chunk: continue`). -/
def streamContent (r : RespData) : List Nat :=
  (r.chunks.filter (fun c => ! c.isEmpty)).flatten

/-- `download(url, dst_path, token)` (`src/sda/io/download_fast.py`): stream
via a `make_session` session (GET with the urllib3 retry policy), write chunks
to the sibling `dst + ".part"`, and atomically `os.replace` it onto `dst` only
after the stream finishes.  `raise_for_status` turns a final status `≥ 400`
into an exception before anything is written. -/
def download (attempts : List AttemptOutcome) (fs : FS) (dst : String) :
    Except PyError String × FS :=
  let tmp := dst ++ ".part"
  match urlopen make_session_retry "GET" attempts 0 with
  | .outOfTrace => (.error .requestException, fs)
  | .raised _ _ => (.error .requestException, fs)
  | .resp r _ =>
      if 400 ≤ r.status then (.error (.httpError r.status), fs)
      else
        match r.tail with
        | .broken => (.error .requestException, fsSet fs tmp (streamContent r))
        | .complete =>
            (.ok dst, os_replace (fsSet fs tmp (streamContent r)) tmp dst)

/-! ## Concrete fixtures used by counterexamples and witnesses -/

/-- A successful issuance payload. -/
def payloadA : TokenPayload :=
  { access_token := some "atk-2"
    refresh_token := some "rtk-2"
    token_type := some "Bearer"
    scope := some "openid"
    expires_in := some 600 }

/-- A cached token that is neither revoked nor expired at clock 500. -/
def tokFresh : CDSEToken :=
  { id := 1, login := "alice", password := "pw", access_token := "atk-1"
    refresh_token := none, token_type := none, scope := none
    expires_in_s := some 900, issued_at := 100, expires_at := some 1000
    is_revoked := false, created_at := 100, updated_at := 100 }

/-- The same token, revoked. -/
def tokRevoked : CDSEToken :=
  { tokFresh with is_revoked := true }

/-- Store holding only `tokFresh`, before its expiry. -/
def storeFresh : TokenStore :=
  { table := [tokFresh], nextId := 2, now := 500 }

/-- Store holding only `tokFresh`, after its expiry. -/
def storeStale : TokenStore :=
  { table := [tokFresh], nextId := 2, now := 5000 }

/-- The empty execution context. -/
def ctx0 : Ctx :=
  { sessions := [], nextId := 0, current := none }

/-- A plain 200 response with two chunks. -/
def respOk : RespData :=
  { status := 200, hasRetryAfter := false, chunks := [[1, 2], [3]],
    tail := .complete }

/-- A 404 response. -/
def resp404 : RespData :=
  { status := 404, hasRetryAfter := false, chunks := [], tail := .complete }

/-- A 503 response. -/
def resp503 : RespData :=
  { status := 503, hasRetryAfter := false, chunks := [], tail := .complete }

/-- A cached token with no expiry (`expires_at` null) and not revoked. -/
def tokNoExpiry : CDSEToken :=
  { tokFresh with expires_in_s := none, expires_at := none }

/-- The row created by a reissue against `storeStale` with `payloadA`. -/
def tokReissued : CDSEToken :=
  { id := 2, login := "alice", password := "pw", access_token := "atk-2"
    refresh_token := some "rtk-2", token_type := some "Bearer"
    scope := some "openid", expires_in_s := some 600, issued_at := 5000
    expires_at := some 5600, is_revoked := false, created_at := 5000
    updated_at := 5000 }

/-! # Lemmas about `latest_pick` -/

/-- A `some` accumulator folded with one more row stays `some`, and records the
row with the strictly larger `issued_at` (first wins on ties). -/
theorem latest_pick_some (a t : CDSEToken) :
    latest_pick (some a) t = some (if a.issued_at < t.issued_at then t else a) := by
  by_cases h : a.issued_at < t.issued_at <;> simp [latest_pick, h]

/-- Folding `latest_pick` from a `some` accumulator never yields `none`. -/
theorem foldl_latest_pick_isSome (l : List CDSEToken) (a : CDSEToken) :
    (l.foldl latest_pick (some a)).isSome := by
  induction l generalizing a with
  | nil => rfl
  | cons x xs ih =>
      rw [List.foldl_cons, latest_pick_some]
      exact ih _

/-- The fold yields `none` exactly on the empty list. -/
theorem foldl_latest_pick_eq_none (l : List CDSEToken) :
    l.foldl latest_pick none = none ↔ l = [] := by
  cases l with
  | nil => simp
  | cons x xs =>
      refine iff_of_false (fun h => ?_) (by simp)
      have hs := foldl_latest_pick_isSome xs x
      have heq : (x :: xs).foldl latest_pick none = xs.foldl latest_pick (some x) := by
        rw [List.foldl_cons]; rfl
      rw [heq] at h
      rw [h] at hs
      cases hs

/-- A row produced by the fold is a member of the list (or was the
accumulator). -/
theorem foldl_latest_pick_mem (l : List CDSEToken) (acc : Option CDSEToken)
    (t : CDSEToken) (h : l.foldl latest_pick acc = some t) :
    t ∈ l ∨ acc = some t := by
  induction l generalizing acc with
  | nil => exact Or.inr h
  | cons x xs ih =>
      rw [List.foldl_cons] at h
      rcases ih (latest_pick acc x) h with hm | he
      · exact Or.inl (List.mem_cons_of_mem _ hm)
      · cases acc with
        | none =>
            have hx : x = t := by
              have : latest_pick none x = some x := rfl
              rw [this] at he
              exact Option.some.inj he
            exact Or.inl (hx ▸ List.mem_cons_self _ _)
        | some a =>
            rw [latest_pick_some] at he
            by_cases hlt : a.issued_at < x.issued_at
            · rw [if_pos hlt] at he
              exact Or.inl ((Option.some.inj he) ▸ List.mem_cons_self _ _)
            · rw [if_neg hlt] at he
              exact Or.inr he

/-- The fold produces a row with a maximal `issued_at`. -/
theorem foldl_latest_pick_le (l : List CDSEToken) (acc : Option CDSEToken)
    (t : CDSEToken) (h : l.foldl latest_pick acc = some t) :
    (∀ u ∈ l, u.issued_at ≤ t.issued_at) ∧
      (∀ a, acc = some a → a.issued_at ≤ t.issued_at) := by
  induction l generalizing acc with
  | nil =>
      refine ⟨by simp, fun a ha => ?_⟩
      rw [ha] at h
      rw [Option.some.inj h]
  | cons x xs ih =>
      rw [List.foldl_cons] at h
      obtain ⟨h1, h2⟩ := ih (latest_pick acc x) h
      have hx : x.issued_at ≤ t.issued_at := by
        cases acc with
        | none => exact h2 x rfl
        | some a =>
            by_cases hlt : a.issued_at < x.issued_at
            · exact h2 x (by rw [latest_pick_some, if_pos hlt])
            · exact le_trans (not_lt.mp hlt)
                (h2 a (by rw [latest_pick_some, if_neg hlt]))
      refine ⟨fun u hu => ?_, fun a ha => ?_⟩
      · rcases List.mem_cons.mp hu with rfl | hu
        · exact hx
        · exact h1 u hu
      · cases acc with
        | none => cases ha
        | some b =>
            have hb : b = a := Option.some.inj ha
            subst hb
            by_cases hlt : b.issued_at < x.issued_at
            · exact le_trans (le_of_lt hlt) hx
            · exact h2 b (by rw [latest_pick_some, if_neg hlt])

/-- Anatomy of a successful `create_token` call: the new row is appended to the
table (no existing row is touched or removed), it is not revoked, and it takes
the next autoincrement id. -/
theorem create_token_ok (issue : IssueOutcome) (st : TokenStore)
    (login password : String) (totp : Option String) (t : CDSEToken)
    (st1 : TokenStore) (evs : List Event)
    (h : create_token issue st login password totp = (.ok t, st1, evs)) :
    st1.table = st.table ++ [t] ∧ t.is_revoked = false ∧ t.id = st.nextId ∧
      st1.now = st.now ∧ st1.nextId = st.nextId + 1 ∧
      evs = [.networkPOST, .dbCommit] := by
  by_cases hlog : login = ""
  · rw [create_token, if_pos hlog] at h
    cases h
  by_cases hpw : password = ""
  · rw [create_token, if_neg hlog, if_pos hpw] at h
    cases h
  rw [create_token, if_neg hlog, if_neg hpw] at h
  cases hpay : get_cdse_token_payload issue with
  | error e => rw [hpay] at h; cases h
  | ok payload =>
      rw [hpay] at h
      simp only [Prod.mk.injEq, Except.ok.injEq] at h
      obtain ⟨h1, h2, h3⟩ := h
      subst h1
      subst h2
      subst h3
      exact ⟨rfl, rfl, rfl, rfl, rfl, rfl⟩

/-! # Claim theorems -/

/-- C9: `token_is_expired` returns true iff the record is revoked or
`expires_at` is set and the current instant is at or after it; it is true for
any record with a given id immediately after a `revoke_token` of that id,
regardless of `expires_at`, and false for an unrevoked record with a null
`expires_at`. -/
theorem token_is_expired_spec :
    (∀ (now : Instant) (t : CDSEToken),
        token_is_expired now t = true ↔
          (t.is_revoked = true ∨ ∃ e, t.expires_at = some e ∧ e ≤ now)) ∧
    (∀ (st : TokenStore) (i : Nat) (now : Instant) (t : CDSEToken),
        t ∈ (revoke_token st i).2.table → t.id = i →
          token_is_expired now t = true) ∧
    (∀ (now : Instant) (t : CDSEToken),
        t.is_revoked = false → t.expires_at = none →
          token_is_expired now t = false) := by
  refine ⟨fun now t => ?_, fun st i now t ht hid => ?_, fun now t hr he => ?_⟩
  · cases hr : t.is_revoked with
    | true => simp [token_is_expired, hr]
    | false =>
        cases he : t.expires_at with
        | none => simp [token_is_expired, hr, he]
        | some e =>
            simp only [token_is_expired, hr, if_false, he, Bool.false_eq_true,
              false_or, decide_eq_true_eq]
            constructor
            · exact fun h => ⟨e, rfl, h⟩
            · rintro ⟨e1, he1, h⟩
              cases Option.some.inj he1
              exact h
  · rw [revoke_token] at ht
    cases hf : st.table.find? (fun t => t.id == i) with
    | none =>
        rw [hf] at ht
        have := List.find?_eq_none.mp hf t ht
        simp only [beq_iff_eq] at this
        exact absurd hid this
    | some u =>
        rw [hf] at ht
        simp only at ht
        rcases List.mem_map.mp ht with ⟨v, hv, hvt⟩
        by_cases hvi : v.id = i
        · rw [if_pos (beq_iff_eq.mpr hvi)] at hvt
          rw [← hvt]
          simp [token_is_expired]
        · rw [if_neg (by simpa using hvi)] at hvt
          exact absurd (hvt ▸ hid) hvi
  · simp [token_is_expired, hr, he]

/-- Witness for C9 at concrete records: `tokRevoked` is expired at clock 500,
an unrevoked record with null expiry is not. -/
theorem token_is_expired_spec_witness :
    token_is_expired 500 tokRevoked = true ∧
      token_is_expired 500 tokNoExpiry = false := by
  constructor
  · exact (token_is_expired_spec.1 500 tokRevoked).mpr (Or.inl (by decide))
  · exact token_is_expired_spec.2.2 500 tokNoExpiry (by decide) (by decide)

/-- C10: `create_token` with an empty login or empty password raises
`ValueError` with the store unchanged and no side effect performed at all —
in particular no network POST and no commit. -/
theorem create_token_empty_args_rejected :
    (∀ (issue : IssueOutcome) (st : TokenStore) (password : String)
        (totp : Option String),
        create_token issue st "" password totp =
          (.error (.valueError "create_token(): login is required."), st, [])) ∧
    (∀ (issue : IssueOutcome) (st : TokenStore) (login : String)
        (totp : Option String), login ≠ "" →
        create_token issue st login "" totp =
          (.error (.valueError "create_token(): password is required."), st, [])) := by
  constructor
  · intro issue st password totp
    rw [create_token, if_pos rfl]
  · intro issue st login totp h
    rw [create_token, if_neg h, if_pos rfl]

/-- Witness for C10 at a concrete store: both empty-argument calls fail with
`ValueError`, leaving `storeFresh` unchanged and performing no event. -/
theorem create_token_empty_args_rejected_witness :
    create_token (.status 200 payloadA) storeFresh "" "pw" none =
      (.error (.valueError "create_token(): login is required."), storeFresh, []) ∧
    create_token (.status 200 payloadA) storeFresh "alice" "" none =
      (.error (.valueError "create_token(): password is required."), storeFresh, []) := by
  constructor
  · exact create_token_empty_args_rejected.1 (.status 200 payloadA) storeFresh "pw" none
  · exact create_token_empty_args_rejected.2 (.status 200 payloadA) storeFresh "alice"
      none (by decide)

/-- C8: `purge_expired_tokens` deletes exactly the rows that are revoked or
whose `expires_at` has passed, keeps every other row verbatim, returns the
number removed, and returns 0 when run again at the same clock. -/
theorem purge_expired_tokens_spec (st : TokenStore) :
    (purge_expired_tokens st).2.table =
        st.table.filter (fun t => ! purge_eligible st.now t) ∧
    (purge_expired_tokens st).1 =
        (st.table.filter (purge_eligible st.now)).length ∧
    (∀ t, t ∈ st.table → purge_eligible st.now t = false →
        t ∈ (purge_expired_tokens st).2.table) ∧
    (∀ t, t ∈ (purge_expired_tokens st).2.table →
        t ∈ st.table ∧ purge_eligible st.now t = false) ∧
    (purge_expired_tokens (purge_expired_tokens st).2).1 = 0 := by
  refine ⟨rfl, rfl, ?_, ?_, ?_⟩
  · intro t ht he
    exact List.mem_filter.mpr ⟨ht, by rw [he]; rfl⟩
  · intro t ht
    obtain ⟨h1, h2⟩ := List.mem_filter.mp ht
    exact ⟨h1, by simpa using h2⟩
  · rw [show (purge_expired_tokens (purge_expired_tokens st).2).1
        = ((st.table.filter (fun t => ! purge_eligible st.now t)).filter
            (purge_eligible st.now)).length from rfl]
    rw [List.length_eq_zero]
    apply List.filter_eq_nil_iff.mpr
    intro t ht
    have h2 := (List.mem_filter.mp ht).2
    simp only [Bool.not_eq_true'] at h2
    simp [h2]

/-- Witness for C8 at `storeStale`: the stale row is removed (count 1) and the
immediate rerun removes nothing (count 0). -/
theorem purge_expired_tokens_spec_witness :
    (purge_expired_tokens storeStale).1 = 1 ∧
      (purge_expired_tokens (purge_expired_tokens storeStale).2).1 = 0 := by
  constructor
  · rw [(purge_expired_tokens_spec storeStale).2.1]
    decide
  · exact (purge_expired_tokens_spec storeStale).2.2.2.2

/-- C4 counterexample: `get_latest_token` does not filter on `is_revoked` —
with a single, revoked record for "alice" it returns that revoked record,
whereas the claim demands `None` (revoked records are never the one
returned). -/
theorem get_latest_token_returns_revoked :
    get_latest_token [tokRevoked] "alice" = .ok (some tokRevoked) ∧
      tokRevoked.is_revoked = true := by
  exact ⟨rfl, rfl⟩

/-- C4 amended: for a non-empty login, `get_latest_token` returns the most
recently issued record for that identity regardless of revocation and expiry
(so a revoked record can be returned), and `None` exactly when the identity
has no records at all. -/
theorem get_latest_token_spec (db : List CDSEToken) (login : String)
    (h : login ≠ "") :
    (get_latest_token db login = .ok none ↔ ∀ t ∈ db, t.login ≠ login) ∧
    (∀ t, get_latest_token db login = .ok (some t) →
        t ∈ db ∧ t.login = login ∧
          ∀ u ∈ db, u.login = login → u.issued_at ≤ t.issued_at) := by
  rw [get_latest_token, if_neg h]
  simp only [Except.ok.injEq]
  constructor
  · rw [foldl_latest_pick_eq_none, List.filter_eq_nil_iff]
    constructor
    · intro hall t ht hl
      exact hall t ht (by simpa using hl)
    · intro hall t ht hl
      exact hall t ht (by simpa using hl)
  · intro t hf
    have hmem : t ∈ db.filter (fun t => t.login == login) := by
      rcases foldl_latest_pick_mem _ none t hf with hm | he
      · exact hm
      · cases he
    obtain ⟨hdb, hlg⟩ := List.mem_filter.mp hmem
    refine ⟨hdb, by simpa using hlg, fun u hu hul => ?_⟩
    exact (foldl_latest_pick_le _ none t hf).1 u
      (List.mem_filter.mpr ⟨hu, by simpa using hul⟩)

/-- Witness for C4 amended, at the revoked-record store: the returned record
belongs to the table and carries the requested login. -/
theorem get_latest_token_spec_witness :
    tokRevoked ∈ [tokRevoked] ∧ tokRevoked.login = "alice" := by
  have h := (get_latest_token_spec [tokRevoked] "alice" (by decide)).2 tokRevoked rfl
  exact ⟨h.1, h.2.1⟩

/-- C2 counterexample: with a cached token that is neither expired nor revoked
and remote validation enabled, a transport-level probe failure
(`requests.RequestException`, modelled by `ProbeOutcome.exn`) does cause a new
issuance: the trace shows the issuance POST and a commit, and the table grows
to two rows — the cached record is not returned unchanged. -/
theorem probe_transport_failure_reissues :
    (get_or_create_valid_token (.status 200 payloadA) .exn storeFresh
        "alice" "pw" none true).2.2 =
      [.networkProbe, .networkPOST, .dbCommit] ∧
    (get_or_create_valid_token (.status 200 payloadA) .exn storeFresh
        "alice" "pw" none true).2.1.table.length = 2 := by
  exact ⟨rfl, rfl⟩

/-- C2 amended: with a cached, non-expired, non-revoked token and remote
validation enabled, `get_or_create_valid_token` returns the cached record
unchanged exactly when the probe returns a status `< 400`; any other probe
outcome — an authorization failure **or** a transport-level failure — leads to
a new issuance (`_token_is_valid` maps both to `False`). -/
theorem get_or_create_probe_spec (issue : IssueOutcome) (probe : ProbeOutcome)
    (st : TokenStore) (login password : String) (totp : Option String)
    (token : CDSEToken)
    (hl : get_latest_token st.table login = .ok (some token))
    (hfresh : token_is_expired st.now token = false) :
    get_or_create_valid_token issue probe st login password totp true =
      (if token_is_valid probe then (.ok token, st, [.networkProbe])
       else
        ((create_token issue st login password totp).1,
         (create_token issue st login password totp).2.1,
         .networkProbe :: (create_token issue st login password totp).2.2)) := by
  simp only [get_or_create_valid_token, hl, hfresh, Bool.false_eq_true, if_false,
    if_true]

/-- Witness for C2 amended: with a succeeding probe the cached record comes
back and the store is untouched. -/
theorem get_or_create_probe_spec_witness :
    get_or_create_valid_token (.status 200 payloadA) (.status 200) storeFresh
        "alice" "pw" none true =
      (.ok tokFresh, storeFresh, [.networkProbe]) := by
  have h := get_or_create_probe_spec (.status 200 payloadA) (.status 200)
    storeFresh "alice" "pw" none tokFresh rfl rfl
  simpa [token_is_valid] using h

/-- C3 counterexample: after `get_or_create_valid_token` issues a replacement
for the expired cached record, the prior record (id 1) is still present and
entirely unchanged — in particular its `is_revoked` flag is still `false`,
whereas the claim demands that the prior record be revoked. -/
theorem reissue_leaves_prior_unrevoked :
    ((get_or_create_valid_token (.status 200 payloadA) (.status 200) storeStale
        "alice" "pw" none true).2.1.table.find? (fun t => t.id == 1))
      = some tokFresh ∧
    tokFresh.is_revoked = false := by
  exact ⟨rfl, rfl⟩

/-- C3 amended: whenever `get_or_create_valid_token` issues a replacement for
an identity that already had a record (because it was expired/revoked or the
probe rejected it), the new record is appended and every prior record —
including the replaced one — is left byte-for-byte untouched: not revoked, not
mutated, not deleted. -/
theorem get_or_create_reissue_appends (issue : IssueOutcome)
    (probe : ProbeOutcome) (st : TokenStore) (login password : String)
    (totp : Option String) (vpg : Bool) (token t : CDSEToken)
    (st1 : TokenStore) (evs : List Event)
    (hl : get_latest_token st.table login = .ok (some token))
    (htrig : token_is_expired st.now token = true ∨
      (vpg = true ∧ token_is_valid probe = false))
    (hok : get_or_create_valid_token issue probe st login password totp vpg =
      (.ok t, st1, evs)) :
    st1.table = st.table ++ [t] ∧ t.is_revoked = false ∧ t.id = st.nextId ∧
      token ∈ st1.table := by
  have hmem : token ∈ st.table := by
    by_cases h0 : login = ""
    · rw [get_latest_token, if_pos h0] at hl
      cases hl
    · rw [get_latest_token, if_neg h0] at hl
      simp only [Except.ok.injEq] at hl
      rcases foldl_latest_pick_mem _ none token hl with hm | he
      · exact (List.mem_filter.mp hm).1
      · cases he
  simp only [get_or_create_valid_token, hl] at hok
  cases hexp : token_is_expired st.now token with
  | true =>
      rw [hexp] at hok
      simp only [if_true] at hok
      have hc := create_token_ok issue st login password totp t st1 evs hok
      exact ⟨hc.1, hc.2.1, hc.2.2.1, hc.1 ▸ List.mem_append_left _ hmem⟩
  | false =>
      rw [hexp] at hok
      simp only [Bool.false_eq_true, if_false] at hok
      rcases htrig with htrig | ⟨hvpg, hpv⟩
      · rw [hexp] at htrig
        cases htrig
      · subst hvpg
        rw [if_pos rfl, hpv] at hok
        simp only [Bool.false_eq_true, if_false] at hok
        rcases hc : create_token issue st login password totp with ⟨r, st2, evs2⟩
        rw [hc] at hok
        simp only [Prod.mk.injEq] at hok
        obtain ⟨h1, h2, _⟩ := hok
        subst h2
        have hk := create_token_ok issue st login password totp t st2 evs2
          (by rw [hc, h1])
        exact ⟨hk.1, hk.2.1, hk.2.2.1, hk.1 ▸ List.mem_append_left _ hmem⟩

/-- Witness for C3 amended: the concrete reissue against `storeStale` appends
`tokReissued` and keeps `tokFresh` in the table. -/
theorem get_or_create_reissue_appends_witness :
    (get_or_create_valid_token (.status 200 payloadA) (.status 200) storeStale
        "alice" "pw" none true).2.1.table = storeStale.table ++ [tokReissued] ∧
    tokFresh ∈ (get_or_create_valid_token (.status 200 payloadA) (.status 200)
        storeStale "alice" "pw" none true).2.1.table := by
  have h := get_or_create_reissue_appends (.status 200 payloadA) (.status 200)
    storeStale "alice" "pw" none true tokFresh tokReissued
    { table := [tokFresh, tokReissued], nextId := 3, now := 5000 }
    [.networkPOST, .dbCommit] rfl (Or.inl rfl) rfl
  exact ⟨h.1, h.2.2.2⟩

/-! # Lemmas about the session layer -/

/-- A map that fixes every member of a list is the identity on it. -/
theorem map_id_of_mem (l : List Sess) (f : Sess → Sess)
    (h : ∀ s ∈ l, f s = s) : l.map f = l := by
  induction l with
  | nil => rfl
  | cons x xs ih =>
      rw [List.map_cons, h x (List.mem_cons_self _ _),
        ih (fun s hs => h s (List.mem_cons_of_mem _ hs))]

/-- Updating the session with id `i` leaves a list without that id unchanged. -/
theorem map_upd_of_ne (l : List Sess) (i : Nat) (f : Sess → Sess)
    (h : ∀ s ∈ l, s.id ≠ i) :
    l.map (fun s => if s.id == i then f s else s) = l := by
  induction l with
  | nil => rfl
  | cons x xs ih =>
      rw [List.map_cons, if_neg (by simpa using h x (List.mem_cons_self _ _)),
        ih (fun s hs => h s (List.mem_cons_of_mem _ hs))]

/-- An id-preserving per-id update commutes with `find?` on that id. -/
theorem find?_map_upd (l : List Sess) (i : Nat) (f : Sess → Sess)
    (hf : ∀ s, (f s).id = s.id) :
    (l.map (fun s => if s.id == i then f s else s)).find? (fun s => s.id == i)
      = (l.find? (fun s => s.id == i)).map f := by
  induction l with
  | nil => rfl
  | cons x xs ih =>
      rw [List.map_cons]
      by_cases hx : x.id = i
      · rw [if_pos (by simpa using hx)]
        rw [List.find?_cons_of_pos _ (by simpa [hf] using hx),
          List.find?_cons_of_pos _ (by simpa using hx)]
        rfl
      · rw [if_neg (by simpa using hx)]
        rw [List.find?_cons_of_neg _ (by simpa using hx),
          List.find?_cons_of_neg _ (by simpa using hx)]
        exact ih

/-- `lookupSess` and a per-id id-preserving update. -/
theorem lookupSess_onSess (ctx : Ctx) (i : Nat) (f : Sess → Sess)
    (hf : ∀ s, (f s).id = s.id) :
    lookupSess i (onSess i f ctx) = (lookupSess i ctx).map f := by
  simpa [lookupSess, onSess] using find?_map_upd ctx.sessions i f hf

/-- C1 counterexample: running `session_scope` nested inside `session_scope`
from the empty context creates two distinct sessions — the inner scope is not
a no-op reuse of the outer handle — and performs two commits (one per scope,
each on its own session), not exactly one. -/
theorem nested_scopes_two_commits :
    nested_scopes ctx0 =
      (.ok (),
       { sessions := [{ id := 0, commits := 1, rollbacks := 0, closed := true },
                      { id := 1, commits := 1, rollbacks := 0, closed := true }]
         nextId := 2
         current := none }) ∧
    totalCommits (nested_scopes ctx0).2 = 2 := by
  exact ⟨rfl, rfl⟩

/-- C1 amended: a nested `session_scope` invocation is not a no-op wrapper —
each invocation creates and binds its own fresh handle, shadowing the outer
binding for the inner scope's duration and restoring it on exit, and each
scope commits and closes its own handle: one level of nesting performs exactly
two commits (one per scope), each on that scope's own session. -/
theorem nested_scopes_spec (ctx : Ctx)
    (hwf : ∀ s ∈ ctx.sessions, s.id < ctx.nextId) :
    nested_scopes ctx =
      (.ok (),
       { sessions := ctx.sessions ++
           [{ id := ctx.nextId, commits := 1, rollbacks := 0, closed := true },
            { id := ctx.nextId + 1, commits := 1, rollbacks := 0, closed := true }]
         nextId := ctx.nextId + 2
         current := ctx.current }) ∧
    totalCommits (nested_scopes ctx).2 = totalCommits ctx + 2 := by
  obtain ⟨S, n, cur⟩ := ctx
  simp only at hwf
  have hne0 : ∀ s ∈ S, s.id ≠ n :=
    fun s hs => Nat.ne_of_lt (hwf s hs)
  have hne1 : ∀ s ∈ S, s.id ≠ n + 1 :=
    fun s hs => Nat.ne_of_lt (Nat.lt_succ_of_lt (hwf s hs))
  have hmain : nested_scopes ⟨S, n, cur⟩ =
      (.ok (),
       { sessions := S ++
           [{ id := n, commits := 1, rollbacks := 0, closed := true },
            { id := n + 1, commits := 1, rollbacks := 0, closed := true }]
         nextId := n + 2
         current := cur }) := by
    simp only [nested_scopes, session_scope, scopeEntry, commitSess, closeSess,
      onSess, newSess]
    simp [List.map_append, Nat.succ_ne_self]
    apply map_id_of_mem
    intro s hs
    simp [Function.comp, hne0 s hs, hne1 s hs]
  refine ⟨hmain, ?_⟩
  rw [hmain]
  simp [totalCommits, List.sum_append]

/-- Witness for C1 amended at the empty context: two commits happen. -/
theorem nested_scopes_spec_witness :
    totalCommits (nested_scopes ctx0).2 = totalCommits ctx0 + 2 :=
  (nested_scopes_spec ctx0 (by intro s hs; cases hs)).2

/-- C7: for every body run under `session_scope`, the context binding is
restored to whatever was bound before the scope began (hence none is bound
afterward when none was before); when the body raises, the scope's session is
rolled back, the original exception is re-raised unmodified, and the session
is closed; the session is closed on the success path as well. -/
theorem session_scope_error_spec {ε α : Type}
    (body : Nat → Ctx → Except ε α × Ctx) (ctx : Ctx) :
    (session_scope body ctx).2.current = ctx.current ∧
    (ctx.current = none → (session_scope body ctx).2.current = none) ∧
    (∀ e ctx1, body ctx.nextId (scopeEntry ctx) = (.error e, ctx1) →
        (session_scope body ctx).1 = .error e ∧
        ∀ s, lookupSess ctx.nextId ctx1 = some s →
          lookupSess ctx.nextId (session_scope body ctx).2 =
            some { s with rollbacks := s.rollbacks + 1, closed := true }) ∧
    (∀ res ctx1, body ctx.nextId (scopeEntry ctx) = (res, ctx1) →
        ∀ s, lookupSess ctx.nextId ctx1 = some s →
          ∃ s1, lookupSess ctx.nextId (session_scope body ctx).2 = some s1 ∧
            s1.closed = true) := by
  rcases hb : body ctx.nextId (scopeEntry ctx) with ⟨res, ctx1⟩
  cases res with
  | ok a =>
      have hs : session_scope body ctx =
          (.ok a, { closeSess ctx.nextId (commitSess ctx.nextId ctx1) with
            current := ctx.current }) := by
        simp only [session_scope, hb]
      refine ⟨by rw [hs], fun h => by rw [hs]; exact h, ?_, ?_⟩
      · intro e c2 h
        obtain ⟨h1, h2⟩ := Prod.mk.injEq .. ▸ h
        cases h1
      · intro r2 c2 h s hsv
        obtain ⟨h1, h2⟩ := Prod.mk.injEq .. ▸ h
        subst h2
        rw [hs]
        have hlk : lookupSess ctx.nextId
            { closeSess ctx.nextId (commitSess ctx.nextId ctx1) with
              current := ctx.current } =
            lookupSess ctx.nextId (closeSess ctx.nextId (commitSess ctx.nextId ctx1)) :=
          rfl
        have hclose := lookupSess_onSess (commitSess ctx.nextId ctx1) ctx.nextId
          (fun s => { s with closed := true }) (fun s => rfl)
        have hcmt := lookupSess_onSess ctx1 ctx.nextId
          (fun s => { s with commits := s.commits + 1 }) (fun s => rfl)
        rw [hlk, closeSess, hclose, commitSess, hcmt, hsv]
        exact ⟨_, rfl, rfl⟩
  | error e =>
      have hs : session_scope body ctx =
          (.error e, { closeSess ctx.nextId (rollbackSess ctx.nextId ctx1) with
            current := ctx.current }) := by
        simp only [session_scope, hb]
      refine ⟨by rw [hs], fun h => by rw [hs]; exact h, ?_, ?_⟩
      · intro e2 c2 h
        obtain ⟨h1, h2⟩ := Prod.mk.injEq .. ▸ h
        cases h1
        subst h2
        refine ⟨by rw [hs], fun s hsv => ?_⟩
        rw [hs]
        have hlk : lookupSess ctx.nextId
            { closeSess ctx.nextId (rollbackSess ctx.nextId ctx1) with
              current := ctx.current } =
            lookupSess ctx.nextId (closeSess ctx.nextId (rollbackSess ctx.nextId ctx1)) :=
          rfl
        have hclose := lookupSess_onSess (rollbackSess ctx.nextId ctx1) ctx.nextId
          (fun s => { s with closed := true }) (fun s => rfl)
        have hrb := lookupSess_onSess ctx1 ctx.nextId
          (fun s => { s with rollbacks := s.rollbacks + 1 }) (fun s => rfl)
        rw [hlk, closeSess, hclose, rollbackSess, hrb, hsv]
        rfl
      · intro r2 c2 h s hsv
        obtain ⟨h1, h2⟩ := Prod.mk.injEq .. ▸ h
        subst h2
        rw [hs]
        have hlk : lookupSess ctx.nextId
            { closeSess ctx.nextId (rollbackSess ctx.nextId ctx1) with
              current := ctx.current } =
            lookupSess ctx.nextId (closeSess ctx.nextId (rollbackSess ctx.nextId ctx1)) :=
          rfl
        have hclose := lookupSess_onSess (rollbackSess ctx.nextId ctx1) ctx.nextId
          (fun s => { s with closed := true }) (fun s => rfl)
        have hrb := lookupSess_onSess ctx1 ctx.nextId
          (fun s => { s with rollbacks := s.rollbacks + 1 }) (fun s => rfl)
        rw [hlk, closeSess, hclose, rollbackSess, hrb, hsv]
        exact ⟨_, rfl, rfl⟩

/-- Witness for C7 at a concrete raising body from the empty context: the
exception surfaces unmodified, nothing stays bound, and the scope's session
ends up rolled back once and closed. -/
theorem session_scope_error_spec_witness :
    (failing_scope ctx0).1 = .error (PyError.valueError "boom") ∧
    (failing_scope ctx0).2.current = none ∧
    lookupSess 0 (failing_scope ctx0).2 =
      some { id := 0, commits := 0, rollbacks := 1, closed := true } := by
  have h := session_scope_error_spec
    (fun _ c => ((Except.error (PyError.valueError "boom") : Except PyError Unit), c))
    ctx0
  refine ⟨?_, ?_, ?_⟩
  · exact (h.2.2.1 (PyError.valueError "boom") (scopeEntry ctx0) rfl).1
  · exact h.2.1 rfl
  · exact (h.2.2.1 (PyError.valueError "boom") (scopeEntry ctx0) rfl).2
      { id := 0, commits := 0, rollbacks := 0, closed := false } rfl

/-! # Lemmas about the filesystem model -/

/-- The derived temporary name is distinct from the destination. -/
theorem part_name_ne (dst : String) : dst ++ ".part" ≠ dst := by
  intro h
  have hlen := congrArg String.length h
  rw [String.length_append] at hlen
  have h5 : ".part".length = 5 := rfl
  omega

/-- Removing all entries at one path does not disturb lookups at another. -/
theorem find?_filter_ne (fs : FS) (p q : String) (h : q ≠ p) :
    (fs.filter (fun e => e.1 != p)).find? (fun e => e.1 == q) =
      fs.find? (fun e => e.1 == q) := by
  induction fs with
  | nil => rfl
  | cons e l ih =>
      by_cases hp : e.1 = p
      · rw [List.filter_cons_of_neg (by simp [hp]),
          List.find?_cons_of_neg _ (by simp [hp]; exact fun hq => h hq.symm)]
        exact ih
      · rw [List.filter_cons_of_pos (by simp [hp])]
        by_cases hq : e.1 = q
        · rw [List.find?_cons_of_pos _ (by simp [hq]),
            List.find?_cons_of_pos _ (by simp [hq])]
        · rw [List.find?_cons_of_neg _ (by simp [hq]),
            List.find?_cons_of_neg _ (by simp [hq])]
          exact ih

/-- After removing all entries at `p`, a lookup at `p` finds nothing. -/
theorem find?_filter_self (fs : FS) (p : String) :
    (fs.filter (fun e => e.1 != p)).find? (fun e => e.1 == p) = none := by
  apply List.find?_eq_none.mpr
  intro e he
  have h2 := (List.mem_filter.mp he).2
  simp only [bne_iff_ne, ne_eq] at h2
  simp [h2]

/-- Writing a file makes it readable. -/
theorem fsGet_fsSet_self (fs : FS) (p : String) (c : List Nat) :
    fsGet (fsSet fs p c) p = some c := by
  rw [fsGet, fsSet, List.find?_append, find?_filter_self, Option.none_or,
    List.find?_cons_of_pos _ (by simp)]
  rfl

/-- Writing one path leaves every other path unchanged. -/
theorem fsGet_fsSet_ne (fs : FS) (p q : String) (c : List Nat) (h : q ≠ p) :
    fsGet (fsSet fs p c) q = fsGet fs q := by
  rw [fsGet, fsSet, List.find?_append, find?_filter_ne fs p q h,
    List.find?_cons_of_neg _ (by simp; exact fun hq => h hq.symm), fsGet]
  cases fs.find? (fun e => e.1 == q) <;> rfl

/-- `os.replace` moves the file: the destination carries the source's content
and the source is gone. -/
theorem os_replace_spec (fs : FS) (src dst : String) (c : List Nat)
    (hsrc : fsGet fs src = some c) (hne : src ≠ dst) :
    fsGet (os_replace fs src dst) dst = some c ∧
      fsGet (os_replace fs src dst) src = none := by
  rw [os_replace, hsrc]
  refine ⟨fsGet_fsSet_self _ _ _, ?_⟩
  rw [fsGet_fsSet_ne _ _ _ _ hne, fsGet, find?_filter_self]
  rfl

/-- `os.replace` does not touch any third path. -/
theorem os_replace_other (fs : FS) (src dst q : String)
    (hq1 : q ≠ src) (hq2 : q ≠ dst) :
    fsGet (os_replace fs src dst) q = fsGet fs q := by
  rw [os_replace]
  cases hs : fsGet fs src with
  | none => rfl
  | some c =>
      rw [fsGet_fsSet_ne _ _ _ _ hq2, fsGet, find?_filter_ne fs src q hq1]
      rfl

/-- C5: bytes stream only into the `.part` sibling; the destination path is
written solely by the final atomic rename after a complete stream; every
failure — a terminal status such as 404 (which consumes exactly one attempt,
no retries), an exhausted retry budget, or a mid-stream break — leaves the
destination path exactly as it was. -/
theorem download_atomic_spec :
    (∀ attempts fs dst e fs1,
        download attempts fs dst = (.error e, fs1) →
        fsGet fs1 dst = fsGet fs dst ∧
          ∀ p, p ≠ dst ++ ".part" → fsGet fs1 p = fsGet fs p) ∧
    (∀ attempts fs dst x fs1,
        download attempts fs dst = (.ok x, fs1) →
        x = dst ∧
        ∃ r n, urlopen make_session_retry "GET" attempts 0 = .resp r n ∧
          r.status < 400 ∧ r.tail = .complete ∧
          fs1 = os_replace (fsSet fs (dst ++ ".part") (streamContent r))
            (dst ++ ".part") dst ∧
          fsGet fs1 dst = some (streamContent r) ∧
          fsGet fs1 (dst ++ ".part") = none) ∧
    (∀ (r : RespData) rest fs dst, r.status = 404 →
        download (.resp r :: rest) fs dst = (.error (.httpError 404), fs) ∧
        urlopen make_session_retry "GET" (.resp r :: rest) 0 = .resp r 1) := by
  refine ⟨?_, ?_, ?_⟩
  · intro attempts fs dst e fs1 h
    simp only [download] at h
    cases hu : urlopen make_session_retry "GET" attempts 0 with
    | outOfTrace =>
        simp only [hu] at h
        obtain ⟨h1, h2⟩ := Prod.mk.injEq .. ▸ h
        subst h2
        exact ⟨rfl, fun p hp => rfl⟩
    | raised k n =>
        simp only [hu] at h
        obtain ⟨h1, h2⟩ := Prod.mk.injEq .. ▸ h
        subst h2
        exact ⟨rfl, fun p hp => rfl⟩
    | resp r n =>
        simp only [hu] at h
        by_cases hst : 400 ≤ r.status
        · rw [if_pos hst] at h
          obtain ⟨h1, h2⟩ := Prod.mk.injEq .. ▸ h
          subst h2
          exact ⟨rfl, fun p hp => rfl⟩
        · rw [if_neg hst] at h
          cases ht : r.tail with
          | complete =>
              simp only [ht] at h
              obtain ⟨h1, h2⟩ := Prod.mk.injEq .. ▸ h
              cases h1
          | broken =>
              simp only [ht] at h
              obtain ⟨h1, h2⟩ := Prod.mk.injEq .. ▸ h
              subst h2
              exact ⟨fsGet_fsSet_ne fs _ dst _ (fun hh => part_name_ne dst hh.symm),
                fun p hp => fsGet_fsSet_ne fs _ p _ hp⟩
  · intro attempts fs dst x fs1 h
    simp only [download] at h
    cases hu : urlopen make_session_retry "GET" attempts 0 with
    | outOfTrace =>
        simp only [hu] at h
        obtain ⟨h1, h2⟩ := Prod.mk.injEq .. ▸ h
        cases h1
    | raised k n =>
        simp only [hu] at h
        obtain ⟨h1, h2⟩ := Prod.mk.injEq .. ▸ h
        cases h1
    | resp r n =>
        simp only [hu] at h
        by_cases hst : 400 ≤ r.status
        · rw [if_pos hst] at h
          obtain ⟨h1, h2⟩ := Prod.mk.injEq .. ▸ h
          cases h1
        · rw [if_neg hst] at h
          cases ht : r.tail with
          | broken =>
              simp only [ht] at h
              obtain ⟨h1, h2⟩ := Prod.mk.injEq .. ▸ h
              cases h1
          | complete =>
              simp only [ht] at h
              obtain ⟨h1, h2⟩ := Prod.mk.injEq .. ▸ h
              obtain rfl : dst = x := Except.ok.inj h1
              subst h2
              have hos := os_replace_spec (fsSet fs (dst ++ ".part") (streamContent r))
                (dst ++ ".part") dst (streamContent r)
                (fsGet_fsSet_self fs _ _) (part_name_ne dst)
              exact ⟨rfl, r, n, rfl, Nat.lt_of_not_le hst, ht, rfl, hos.1, hos.2⟩
  · intro r rest fs dst h404
    have hretry : make_session_retry.is_retry "GET" r.status r.hasRetryAfter = false := by
      rw [h404]
      cases r.hasRetryAfter with
      | false => decide
      | true => decide
    have hu : urlopen make_session_retry "GET" (.resp r :: rest) 0 = .resp r 1 := by
      simp only [urlopen, hretry, Bool.false_eq_true, if_false]
    refine ⟨?_, hu⟩
    simp only [download, hu, h404]
    rfl

/-- Witness for C5 at concrete traces: a 404 leaves the empty filesystem
untouched, and a successful two-chunk stream materializes `[1, 2, 3]` at the
destination with the temporary file gone. -/
theorem download_atomic_spec_witness :
    download [.resp resp404] [] "d" = (.error (.httpError 404), []) ∧
    fsGet (download [.resp respOk] [] "d").2 "d" = some [1, 2, 3] ∧
    fsGet (download [.resp respOk] [] "d").2 ("d" ++ ".part") = none := by
  have hok : download [.resp respOk] [] "d" = (.ok "d", [("d", [1, 2, 3])]) := rfl
  have h := download_atomic_spec.2.1 [.resp respOk] [] "d" "d" [("d", [1, 2, 3])] hok
  obtain ⟨-, r, n, hu, -, -, -, hdst, htmp⟩ := h
  have hu2 : urlopen make_session_retry "GET" [.resp respOk] 0 = .resp respOk 1 := rfl
  have hrn := hu2.symm.trans hu
  cases hrn
  refine ⟨(download_atomic_spec.2.2 resp404 [] [] "d" rfl).1, ?_, ?_⟩
  · rw [hok]
    exact hdst.trans rfl
  · rw [hok]
    exact htmp

/-- C6 counterexample: the non-idempotent token-issuance POST goes through the
same `make_session` transport, and a connection-phase failure on a POST is
auto-retried by `Retry.increment` (which gates read and status retries on
`allowed_methods = ("GET",)` but retries connection errors for every method):
the trace consumes two attempts and succeeds, instead of surfacing the error
after the single attempt that "never auto-retried" would imply. -/
theorem post_connect_failure_retried :
    urlopen make_session_retry "POST" [.fail .connectErr, .resp respOk] 0 =
      .resp respOk 2 := by
  rfl

/-- C6 amended: with the `make_session` configuration, GET requests are
retried on connection failures and exactly on the statuses
{429, 500, 502, 503, 504} (plus 413/429/503 when the server supplies a
retry-after hint); backoff is exponential with factor 0.5 (first retry
immediate, then 1, 2, 4, … time-units capped at 120) and a server retry-after
hint is honored; the budget is 8 total retries with independent caps of 5
connection-phase and 5 read-phase retries (the sixth consecutive failure of a
phase is not retried); non-idempotent methods such as POST are never retried
on HTTP statuses or read failures, but connection-phase failures are retried
for every method, including the token-issuance POST, within the same caps. -/
theorem make_session_retry_spec :
    (∀ s : Nat, make_session_retry.is_retry "GET" s false =
        [429, 500, 502, 503, 504].contains s) ∧
    (make_session_retry.is_retry "GET" 413 true = true) ∧
    (∀ (s : Nat) (hra : Bool), make_session_retry.is_retry "POST" s hra = false) ∧
    (make_session_retry.increment "POST" (.failure .readErr) =
        .error (.reraised .readErr)) ∧
    (urlopen make_session_retry "POST" (List.replicate 6 (.fail .connectErr)) 0 =
        .raised .maxRetryError 6) ∧
    (urlopen make_session_retry "GET" (List.replicate 6 (.fail .connectErr)) 0 =
        .raised .maxRetryError 6) ∧
    (urlopen make_session_retry "GET" (List.replicate 6 (.fail .readErr)) 0 =
        .raised .maxRetryError 6) ∧
    (urlopen make_session_retry "GET" (List.replicate 6 (.resp resp503)) 0 =
        .resp resp503 6) ∧
    (urlopen make_session_retry "GET"
        [.fail .connectErr, .fail .readErr, .fail .connectErr, .fail .readErr,
         .fail .connectErr, .fail .readErr, .fail .connectErr, .fail .readErr,
         .fail .connectErr] 0 = .raised .maxRetryError 9) ∧
    make_session_retry.backoff_factor = 1 / 2 ∧
    make_session_retry.respect_retry_after_header = true ∧
    ({ make_session_retry with history_len := 1 } : Retry).get_backoff_time = 0 ∧
    (∀ h : Nat, 2 ≤ h →
        ({ make_session_retry with history_len := h } : Retry).get_backoff_time =
          min 120 ((1 / 2) * 2 ^ (h - 1))) ∧
    (∀ ra : ℚ, ra ≠ 0 → make_session_retry.sleep_duration (some ra) = ra) := by
  refine ⟨?_, by decide, ?_, rfl, rfl, rfl, rfl, rfl, rfl, rfl, rfl, ?_, ?_, ?_⟩
  · intro s
    have hm : make_session_retry.method_retryable "GET" = true := by decide
    cases hc : [429, 500, 502, 503, 504].contains s with
    | true =>
        simp only [Retry.is_retry, hm, Bool.not_true, Bool.false_eq_true, if_false]
        rw [if_pos]
        show (!make_session_retry.status_forcelist.isEmpty &&
          make_session_retry.status_forcelist.contains s) = true
        rw [show make_session_retry.status_forcelist = [429, 500, 502, 503, 504] from rfl,
          hc]
        rfl
    | false =>
        simp only [Retry.is_retry, hm, Bool.not_true, Bool.false_eq_true, if_false]
        rw [if_neg, Bool.and_false, Bool.false_and]
        show ¬ ((!make_session_retry.status_forcelist.isEmpty &&
          make_session_retry.status_forcelist.contains s) = true)
        rw [show make_session_retry.status_forcelist = [429, 500, 502, 503, 504] from rfl,
          hc]
        simp
  · intro s hra
    have hm : make_session_retry.method_retryable "POST" = false := by decide
    simp [Retry.is_retry, hm]
  · exact by simp [Retry.get_backoff_time]
  · intro h hh
    have hle : ¬ h ≤ 1 := by omega
    simp [Retry.get_backoff_time, hle, make_session_retry]
  · intro ra hra
    simp [Retry.sleep_duration, make_session_retry, hra]

/-- Witness for C6 amended at concrete inputs: the third consecutive retry
waits 2 time-units (0.5 · 2²), and a POST receiving a retryable status 503 is
not retried. -/
theorem make_session_retry_spec_witness :
    ({ make_session_retry with history_len := 3 } : Retry).get_backoff_time =
      min 120 ((1 / 2) * 2 ^ (3 - 1)) ∧
    make_session_retry.is_retry "POST" 503 true = false := by
  constructor
  · exact make_session_retry_spec.2.2.2.2.2.2.2.2.2.2.2.2.1 3 (by omega)
  · exact make_session_retry_spec.2.2.1 503 true

end SDA
